import Mathlib

/-
Verification of the single-line viewport-scrolling input widget of
holy-kern-base (src/hkb_client/src/components/input.rs).

Modelling conventions:
- `buffer` is a `List Char`; positions are character positions.  The claims and
  scenarios under study are ASCII, where Rust byte indices and character
  positions coincide.
- Machine integers (`u16`, `usize`) are modelled as `Nat`.
- Rust `checked_sub(k).unwrap_or(0)` is Lean truncated subtraction `a - k`.
- A bare unsigned subtraction in the source (which is an arithmetic fault on
  underflow) is modelled by the fallible `usub`; an operation containing one
  returns `Option InputState`, `none` marking the fault.
- Rust string slicing `&s[a..b]` (which panics when the range is out of
  bounds) is likewise guarded.
-/

namespace HkbInput

/-- Character predicate matching Rust `char::is_whitespace` (the Unicode
White_Space property). -/
def rustIsWhitespace (ch : Char) : Bool :=
  [0x09, 0x0A, 0x0B, 0x0C, 0x0D, 0x20, 0x85, 0xA0, 0x1680,
   0x2000, 0x2001, 0x2002, 0x2003, 0x2004, 0x2005, 0x2006, 0x2007,
   0x2008, 0x2009, 0x200A, 0x2028, 0x2029, 0x202F, 0x205F, 0x3000].contains ch.toNat

/-- Character predicate matching Rust `char::is_ascii_punctuation`
(U+0021-U+002F, U+003A-U+0040, U+005B-U+0060, U+007B-U+007E). -/
def rustIsAsciiPunct (ch : Char) : Bool :=
  (0x21 ≤ ch.toNat && ch.toNat ≤ 0x2F) ||
  (0x3A ≤ ch.toNat && ch.toNat ≤ 0x40) ||
  (0x5B ≤ ch.toNat && ch.toNat ≤ 0x60) ||
  (0x7B ≤ ch.toNat && ch.toNat ≤ 0x7E)

/-- The widget state, from `InputState` (input.rs lines 12-18): the logical
line `buffer`, the focus flag, the cursor column `cursor_offset` (u16), the
window start `visible_buffer_offset` (usize) and the width stored at the last
render `last_render_width` (u16). -/
structure InputState where
  buffer : List Char
  focused : Bool
  cursor_offset : Nat
  visible_buffer_offset : Nat
  last_render_width : Nat
deriving Repr, DecidableEq

/-- The `Default` instance (input.rs lines 20-30): empty buffer, all offsets
zero, unfocused, width zero. -/
def initialState : InputState :=
  { buffer := [], focused := false, cursor_offset := 0,
    visible_buffer_offset := 0, last_render_width := 0 }

/-- Unchecked unsigned subtraction as the Rust source performs it: underflow
(`b > a`) is an arithmetic fault (a panic under debug assertions), modelled as
`none`. -/
def usub (a b : Nat) : Option Nat :=
  if b ≤ a then some (a - b) else none

/-- `Focusable::focus` (input.rs lines 33-35). -/
def focus (s : InputState) : InputState :=
  { s with focused := true }

/-- Render storing the block width into the state (input.rs line 279); this is
the only effect of a resize on the stored state. -/
def resize (w : Nat) (s : InputState) : InputState :=
  { s with last_render_width := w }

/-- `get_max_right_cursor_pos` (input.rs lines 63-65):
`min(buffer.len(), (last_render_width - 1) as usize)`, where the width
subtraction is unchecked u16 arithmetic. -/
def get_max_right_cursor_pos (s : InputState) : Option Nat := do
  let m ← usub s.last_render_width 1
  pure (min s.buffer.length m)

/-- `go_left` (input.rs lines 67-73). -/
def go_left (s : InputState) : InputState :=
  if s.cursor_offset ≠ 0 then
    { s with cursor_offset := s.cursor_offset - 1 }
  else if s.visible_buffer_offset ≠ 0 then
    { s with visible_buffer_offset := s.visible_buffer_offset - 1 }
  else s

/-- `go_right` (input.rs lines 75-82). -/
def go_right (s : InputState) : Option InputState := do
  let visible_buffer_len := s.last_render_width + s.visible_buffer_offset
  let maxRight ← get_max_right_cursor_pos s
  if s.cursor_offset < maxRight then
    pure { s with cursor_offset := s.cursor_offset + 1 }
  else if visible_buffer_len < s.buffer.length then
    pure { s with visible_buffer_offset := s.visible_buffer_offset + 1 }
  else
    pure s

/-- `go_far_left` (input.rs lines 84-87). -/
def go_far_left (s : InputState) : InputState :=
  { s with visible_buffer_offset := 0, cursor_offset := 0 }

/-- `go_far_right` (input.rs lines 89-95); the window start uses
`checked_sub(..).unwrap_or(0)`, i.e. truncated subtraction. -/
def go_far_right (s : InputState) : Option InputState := do
  let maxRight ← get_max_right_cursor_pos s
  pure { s with cursor_offset := maxRight,
                visible_buffer_offset := s.buffer.length - s.last_render_width }

/-- `get_char_class` (input.rs lines 97-109): `-1` out of bounds, `0`
whitespace, `1` ASCII punctuation, `2` word character. -/
def get_char_class (pos : Nat) (chars : List Char) : Int :=
  if pos ≥ chars.length then -1
  else if rustIsWhitespace (chars.getD pos ' ') then 0
  else if rustIsAsciiPunct (chars.getD pos ' ') then 1
  else 2

/-- The forward whitespace-skipping loop of `go_end_of_word` (input.rs lines
115-117).  `fuel` bounds the iterations; `chars.length + 1` always suffices
because class `0` forces `pos < chars.length`, so the loop exits by the time
`pos` passes the end of the buffer. -/
def skipWsFwd (chars : List Char) : Nat → Nat → Nat
  | 0, pos => pos
  | fuel + 1, pos =>
      if get_char_class pos chars = 0 then skipWsFwd chars fuel (pos + 1) else pos

/-- The forward class-advancing loop of `go_end_of_word` (input.rs lines
122-124); the source only enters it with `cls` different from `-1`, for which
`chars.length + 1` fuel always suffices. -/
def advClassFwd (chars : List Char) (cls : Int) : Nat → Nat → Nat
  | 0, pos => pos
  | fuel + 1, pos =>
      if get_char_class pos chars = cls then advClassFwd chars cls fuel (pos + 1) else pos

/-- The scan of `go_end_of_word` (input.rs lines 112-125) on `current_pos`,
starting from `start` (the source passes the logical cursor position plus
one): skip whitespace, then, when the class found is not `-1`, advance through
that class. -/
def end_of_word_scan (chars : List Char) (start : Nat) : Nat :=
  let p1 := skipWsFwd chars (chars.length + 1) start
  let cls := get_char_class p1 chars
  if cls ≠ -1 then advClassFwd chars cls (chars.length + 1) p1 else p1

/-- `go_end_of_word` (input.rs lines 111-135).  The cursor update at line
127-130 uses `checked_sub(1).unwrap_or(0)` (truncated), but the window test at
line 132 subtracts 1 from `get_max_right_cursor_pos` unchecked, and the window
update at line 133 subtracts the new cursor and 1 unchecked. -/
def go_end_of_word (s : InputState) : Option InputState := do
  let current := end_of_word_scan s.buffer (s.visible_buffer_offset + s.cursor_offset + 1)
  let maxRight ← get_max_right_cursor_pos s
  let cNew := min (current - 1) maxRight
  let threshold ← usub maxRight 1
  if current ≥ threshold then
    let t1 ← usub current cNew
    let t2 ← usub t1 1
    pure { s with cursor_offset := cNew, visible_buffer_offset := t2 }
  else
    pure { s with cursor_offset := cNew }

/-- The backward whitespace-skipping loop of `go_back_word` (input.rs lines
144-150): decrement with `checked_sub(..).unwrap_or(0)` and break as soon as
the position reaches 0.  Fuel `pos + 1` always suffices since the position
strictly decreases. -/
def backSkipWs (chars : List Char) : Nat → Nat → Nat
  | 0, pos => pos
  | fuel + 1, pos =>
      if get_char_class pos chars = 0 then
        let p := pos - 1
        if p = 0 then 0 else backSkipWs chars fuel p
      else pos

/-- The backward class-skipping loop of `go_back_word` (input.rs lines
155-161), same shape as `backSkipWs` with a fixed class. -/
def backSkipClass (chars : List Char) (cls : Int) : Nat → Nat → Nat
  | 0, pos => pos
  | fuel + 1, pos =>
      if get_char_class pos chars = cls then
        let p := pos - 1
        if p = 0 then 0 else backSkipClass chars cls fuel p
      else pos

/-- The scan of `go_back_word` (input.rs lines 138-162) computing
`current_pos` from the logical cursor position: start one to the left
(truncated), skip whitespace backward, then, if not at 0 and the class found
is not `-1`, skip backward through that class. -/
def back_word_scan (chars : List Char) (fromPos : Nat) : Nat :=
  let p0 := fromPos - 1
  let p1 := backSkipWs chars (p0 + 1) p0
  let cls := get_char_class p1 chars
  if p1 ≠ 0 ∧ cls ≠ -1 then backSkipClass chars cls (p1 + 1) p1 else p1

/-- `go_back_word` (input.rs lines 137-170): after the scan, either shift the
window start down by the scan result (when the result is left of the window)
and zero the cursor, or put the cursor at the result relative to the window.
Both subtractions are guarded by the branch condition in the source. -/
def go_back_word (s : InputState) : InputState :=
  let current := back_word_scan s.buffer (s.visible_buffer_offset + s.cursor_offset)
  if s.visible_buffer_offset > current then
    { s with visible_buffer_offset := s.visible_buffer_offset - current,
             cursor_offset := 0 }
  else
    { s with cursor_offset := current - s.visible_buffer_offset }

/-- The 'i' binding (input.rs line 190): enter editing in place; the widget
state is untouched. -/
def binding_i (s : InputState) : InputState := s

/-- The 'I' binding (input.rs lines 191-195): jump to line start, then enter
editing. -/
def binding_shift_i (s : InputState) : InputState := go_far_left s

/-- The 'a' (insert-after) binding (input.rs lines 196-200): an unclamped
increment of the cursor column. -/
def binding_a (s : InputState) : InputState :=
  { s with cursor_offset := s.cursor_offset + 1 }

/-- The 'A' binding (input.rs lines 201-205): jump to line end, then enter
editing. -/
def binding_shift_a (s : InputState) : InputState :=
  (go_far_right s).getD s

/-- `get_buffer_update_offset` (input.rs lines 214-216): the logical cursor
position. -/
def get_buffer_update_offset (s : InputState) : Nat :=
  s.visible_buffer_offset + s.cursor_offset

/-- Character insertion in editing mode (input.rs lines 226-243): split the
buffer at the logical cursor position (a panic when the offset is outside the
buffer), splice the character in, force a scroll when the cursor sat at the
last visible column, then `go_right`. -/
def insert_char (c : Char) (s : InputState) : Option InputState := do
  let offset := get_buffer_update_offset s
  if offset ≤ s.buffer.length then
    let firstPart := s.buffer.take offset
    let secondPart := s.buffer.drop offset
    let s1 := { s with buffer := firstPart ++ c :: secondPart }
    let s2 := if s1.cursor_offset + 1 ≥ s1.last_render_width then
                { s1 with visible_buffer_offset := s1.visible_buffer_offset + 1 }
              else s1
    go_right s2
  else none

/-- Backspace in editing mode (input.rs lines 250-261): take the buffer up to
`offset - 1` (clamped with `checked_sub`, and a panic when `offset` is outside
the buffer), drop up to `offset`, and build the new buffer with capacity
`first_part.len() + second_part.len() - 1` — that last subtraction is
unchecked usize arithmetic (line 254).  The cursor decrement is clamped. -/
def backspace (s : InputState) : Option InputState := do
  let offset := get_buffer_update_offset s
  if offset ≤ s.buffer.length then
    let firstPart := s.buffer.take (offset - 1)
    let secondPart := s.buffer.drop offset
    let _capacity ← usub (firstPart.length + secondPart.length) 1
    pure { s with buffer := firstPart ++ secondPart,
                  cursor_offset := s.cursor_offset - 1 }
  else none

/-- `trimmed_buffer` (input.rs lines 53-61): the visible slice
`buffer[visible_buffer_offset .. min(buffer.len, width + visible_buffer_offset)]`
for a given render width (a panic when the window start is past the end). -/
def trimmed_buffer (areaWidth : Nat) (s : InputState) : Option (List Char) :=
  let offsetEnd := min s.buffer.length (areaWidth + s.visible_buffer_offset)
  if s.visible_buffer_offset ≤ offsetEnd then
    some ((s.buffer.take offsetEnd).drop s.visible_buffer_offset)
  else none

/-- The character classes the spec assigns to buffer positions (spec section 3,
CharClass). -/
inductive CharClass
  | Whitespace
  | Punctuation
  | Word
  | OutOfBounds
deriving DecidableEq, Repr

/-- Follows the spec's words (section 4.2, classify): `OutOfBounds` if the
position is at or past the buffer length, else `Whitespace` if the character
is blank, `Punctuation` if it is an ASCII punctuation mark, else `Word`. -/
def spec_classify (chars : List Char) (pos : Nat) : CharClass :=
  if pos ≥ chars.length then CharClass.OutOfBounds
  else if rustIsWhitespace (chars.getD pos ' ') then CharClass.Whitespace
  else if rustIsAsciiPunct (chars.getD pos ' ') then CharClass.Punctuation
  else CharClass.Word

/-- The numeric code the source uses for each spec class. -/
def classCode : CharClass → Int
  | CharClass.Whitespace => 0
  | CharClass.Punctuation => 1
  | CharClass.Word => 2
  | CharClass.OutOfBounds => -1

/-- Follows the spec's words (section 4.2, end_of_word): skip while the class
is `Whitespace`. -/
def spec_skip_ws (chars : List Char) : Nat → Nat → Nat
  | 0, pos => pos
  | fuel + 1, pos =>
      if spec_classify chars pos = CharClass.Whitespace then
        spec_skip_ws chars fuel (pos + 1)
      else pos

/-- Follows the spec's words (section 4.2, end_of_word): continue advancing
while the class remains the recorded class. -/
def spec_adv_class (chars : List Char) (c : CharClass) : Nat → Nat → Nat
  | 0, pos => pos
  | fuel + 1, pos =>
      if spec_classify chars pos = c then
        spec_adv_class chars c fuel (pos + 1)
      else pos

/-- Follows the spec's words (section 4.2, end_of_word): advance a scan cursor
starting at `from_logical_position + 1`; skip while the class is `Whitespace`;
record the class at the first non-whitespace position; when that class is not
`OutOfBounds`, continue advancing while the class remains it; the result is
the scan position minus one, clipped at zero. -/
def spec_end_of_word (chars : List Char) (fromPos : Nat) : Nat :=
  let start := fromPos + 1
  let p1 := spec_skip_ws chars (chars.length + 1) start
  let c := spec_classify chars p1
  let p2 := if c ≠ CharClass.OutOfBounds then
              spec_adv_class chars c (chars.length + 1) p1
            else p1
  p2 - 1

/-- Scenario state for the back-word claim: buffer "ab cd ef", window start 6,
cursor column 1 (logical position 7), width 9.  A valid state: both claimed
invariants hold. -/
def stateC4 : InputState :=
  { buffer := "ab cd ef".toList, focused := true, cursor_offset := 1,
    visible_buffer_offset := 6, last_render_width := 9 }

/-- Scenario state of spec scenario E: buffer of 20 characters, window start
15, width 10; the cursor column 5 keeps both invariants. -/
def stateC5 : InputState :=
  { buffer := List.replicate 20 'a', focused := true, cursor_offset := 5,
    visible_buffer_offset := 15, last_render_width := 10 }

/-- Scenario state of spec scenario A: buffer "hello world", width 5. -/
def helloState : InputState :=
  { buffer := "hello world".toList, focused := true, cursor_offset := 0,
    visible_buffer_offset := 0, last_render_width := 5 }

/-- The state `jump_line_end` produces from `helloState`. -/
def helloEndState : InputState :=
  { helloState with cursor_offset := 4, visible_buffer_offset := 6 }

/-- Scenario state of spec scenario D: buffer "foo bar", cursor at logical
position 0, window wide enough (width 50). -/
def fooBarState : InputState :=
  { buffer := "foo bar".toList, focused := true, cursor_offset := 0,
    visible_buffer_offset := 0, last_render_width := 50 }

/-- Scenario state of spec scenario B: buffer "ab", cursor at logical position
1, width 3. -/
def stateScenB : InputState :=
  { buffer := "ab".toList, focused := true, cursor_offset := 1,
    visible_buffer_offset := 0, last_render_width := 3 }

/-- State showing the insertion double-advance: buffer "abcd", cursor at the
last visible column (column 2 of width 3), window start 0. -/
def stateC8 : InputState :=
  { buffer := "abcd".toList, focused := true, cursor_offset := 2,
    visible_buffer_offset := 0, last_render_width := 3 }

/-- Concrete state for the jump-extremes witness: buffer "abc", width 2. -/
def c9State : InputState :=
  { buffer := "abc".toList, focused := true, cursor_offset := 1,
    visible_buffer_offset := 0, last_render_width := 2 }

/-- The state `jump_line_end` produces from `c9State`. -/
def c9EndState : InputState :=
  { c9State with cursor_offset := 1, visible_buffer_offset := 1 }

/-- Concrete state for the frame-property witness: buffer "ab", width 3. -/
def c10State : InputState :=
  { buffer := "ab".toList, focused := true, cursor_offset := 0,
    visible_buffer_offset := 0, last_render_width := 3 }

/-- The two cursor invariants claimed by the spec for every reachable state:
I1 `cursor_column < last_width` (when `last_width > 0`) and
I2 `window_start + cursor_column ≤ buffer.length`. -/
def cursor_invariants (s : InputState) : Prop :=
  (0 < s.last_render_width → s.cursor_offset < s.last_render_width) ∧
  s.visible_buffer_offset + s.cursor_offset ≤ s.buffer.length

instance (s : InputState) : Decidable (cursor_invariants s) := by
  unfold cursor_invariants
  exact inferInstance

theorem go_far_right_spec (s : InputState) (hw : 0 < s.last_render_width) :
    go_far_right s = some { s with
      cursor_offset := min s.buffer.length (s.last_render_width - 1),
      visible_buffer_offset := s.buffer.length - s.last_render_width } := by
  have hw1 : 1 ≤ s.last_render_width := hw
  unfold go_far_right get_max_right_cursor_pos usub
  rw [if_pos hw1]
  rfl

theorem go_far_right_none (s : InputState) (hw : s.last_render_width = 0) :
    go_far_right s = none := by
  unfold go_far_right get_max_right_cursor_pos usub
  rw [hw]
  rfl

/-- Claim C1: the spec claims that `cursor_column < last_width` (when
`last_width > 0`) and `window_start + cursor_column <= buffer.length` hold in
every state reachable from the initial widget state.  The code violates both:
from the initial state, render at width 1 and press the focused 'a' binding —
the unclamped `cursor_offset += 1` leaves cursor column 1 with width 1 and
logical position 1 on an empty buffer. -/
theorem c1_invariants_fail_on_binding_a :
    ¬ cursor_invariants (binding_a (resize 1 (focus initialState))) ∧
    0 < (binding_a (resize 1 (focus initialState))).last_render_width := by
  decide

/-- Claim C2: the spec claims no operation can fail because all index
arithmetic is saturating/clamped.  The code refutes this: `end_of_word` on an
empty buffer at width 5 reaches the unchecked `max_right - 1` subtraction of
input.rs line 132 with `max_right = 0` and underflows, and
`get_max_right_cursor_pos` itself underflows `last_render_width - 1` on the
initial (width 0) state. -/
theorem c2_unchecked_subtraction_fault :
    go_end_of_word (resize 5 initialState) = none ∧
    get_max_right_cursor_pos initialState = none := by
  decide

/-- Claim C3: the spec claims backspace on an empty buffer (logical position
0) changes nothing and raises no fault.  The code faults: the capacity
expression `first_part.len() + second_part.len() - 1` of input.rs line 254 is
an unchecked usize subtraction and underflows whenever the remaining text is
empty — on the empty buffer and also when deleting the last remaining
character. -/
theorem c3_backspace_empty_fault :
    backspace (resize 5 initialState) = none ∧
    backspace { buffer := ['x'], focused := true, cursor_offset := 1,
                visible_buffer_offset := 0, last_render_width := 5 } = none := by
  decide

/-- Claim C4 (counterexample): on the valid state `stateC4` the back-word scan
result 5 lies before the window start 6, so the claim demands that the window
start become 5 and that window start plus cursor column equal 5 afterwards;
the code instead subtracts the result from the window start, leaving window
start 1 and cursor column 0. -/
theorem c4_counterexample :
    back_word_scan stateC4.buffer (stateC4.visible_buffer_offset + stateC4.cursor_offset) <
      stateC4.visible_buffer_offset ∧
    (go_back_word stateC4).visible_buffer_offset ≠
      back_word_scan stateC4.buffer (stateC4.visible_buffer_offset + stateC4.cursor_offset) ∧
    (go_back_word stateC4).visible_buffer_offset + (go_back_word stateC4).cursor_offset ≠
      back_word_scan stateC4.buffer (stateC4.visible_buffer_offset + stateC4.cursor_offset) := by
  decide

/-- Claim C4 (amended): after `back_word` computes its scan result, if the
result lies before the current window start the window start is decreased BY
the result (not set to it) and the cursor column is zeroed, so window start
plus cursor column equals the old window start minus the result; otherwise the
cursor column is set to result minus window start and window start plus cursor
column equals the result. -/
theorem c4_back_word_window_update (s : InputState) :
    (go_back_word s).buffer = s.buffer ∧
    (if back_word_scan s.buffer (s.visible_buffer_offset + s.cursor_offset) <
        s.visible_buffer_offset then
      (go_back_word s).visible_buffer_offset =
          s.visible_buffer_offset -
            back_word_scan s.buffer (s.visible_buffer_offset + s.cursor_offset) ∧
        (go_back_word s).cursor_offset = 0
     else
      (go_back_word s).visible_buffer_offset = s.visible_buffer_offset ∧
        (go_back_word s).visible_buffer_offset + (go_back_word s).cursor_offset =
          back_word_scan s.buffer (s.visible_buffer_offset + s.cursor_offset)) := by
  unfold go_back_word
  by_cases h : back_word_scan s.buffer (s.visible_buffer_offset + s.cursor_offset) <
      s.visible_buffer_offset
  · simp [gt_iff_lt, h]
  · simp [gt_iff_lt, h]
    omega

/-- Claim C5 (counterexample): spec scenario E state (buffer length 20, window
start 15, width 10, cursor column 5), width shrunk to 5 with no movement call:
the next `move_right` leaves the state — and in particular the cursor column —
entirely unchanged, so the cursor column stays at 5, not below the new width
5; nothing is re-clamped. -/
theorem c5_counterexample :
    go_right (resize 5 stateC5) = some (resize 5 stateC5) ∧
    ¬ (resize 5 stateC5).cursor_offset < (resize 5 stateC5).last_render_width := by
  decide

/-- Claim C5 (amended): after a shrink that leaves the cursor column at or
above the new width, movement does not re-clamp the cursor column against the
width: `move_right` leaves the cursor column unchanged, and `move_left`
decrements it by exactly one. -/
theorem c5_no_reclamp (s : InputState) (hw : 0 < s.last_render_width)
    (hc : s.last_render_width ≤ s.cursor_offset) :
    (∀ t, go_right s = some t → t.cursor_offset = s.cursor_offset) ∧
    (go_left s).cursor_offset = s.cursor_offset - 1 := by
  constructor
  · intro t ht
    unfold go_right at ht
    have hw1 : 1 ≤ s.last_render_width := hw
    have h1 : get_max_right_cursor_pos s =
        some (min s.buffer.length (s.last_render_width - 1)) := by
      unfold get_max_right_cursor_pos usub
      rw [if_pos hw1]
      rfl
    rw [h1] at ht
    simp only [Option.bind_eq_bind, Option.some_bind] at ht
    have hnot : ¬ s.cursor_offset < min s.buffer.length (s.last_render_width - 1) := by
      have : s.last_render_width - 1 < s.last_render_width := by omega
      have := min_le_right s.buffer.length (s.last_render_width - 1)
      omega
    rw [if_neg hnot] at ht
    by_cases h2 : s.last_render_width + s.visible_buffer_offset < s.buffer.length
    · rw [if_pos h2] at ht
      simp only [Option.pure_def, Option.some.injEq] at ht
      subst ht
      rfl
    · rw [if_neg h2] at ht
      simp only [Option.pure_def, Option.some.injEq] at ht
      subst ht
      rfl
  · unfold go_left
    have h0 : s.cursor_offset ≠ 0 := by omega
    rw [if_pos h0]

/-- Witness for the amended C5 theorem at the scenario E state shrunk to
width 5. -/
theorem c5_no_reclamp_witness :
    (∀ t, go_right (resize 5 stateC5) = some t →
        t.cursor_offset = (resize 5 stateC5).cursor_offset) ∧
    (go_left (resize 5 stateC5)).cursor_offset = (resize 5 stateC5).cursor_offset - 1 :=
  c5_no_reclamp (resize 5 stateC5) (by decide) (by decide)

/-- Claim C6: for every state with positive width, `jump_line_end` sets the
cursor column to `min(buffer.length, width - 1)` and the window start to
`buffer.length` saturating-minus the width; on "hello world" with width 5 this
gives window start 6, cursor column 4, and visible text "world". -/
theorem c6_jump_line_end :
    (∀ s : InputState, 0 < s.last_render_width →
      go_far_right s = some { s with
        cursor_offset := min s.buffer.length (s.last_render_width - 1),
        visible_buffer_offset := s.buffer.length - s.last_render_width }) ∧
    go_far_right helloState = some helloEndState ∧
    helloEndState.visible_buffer_offset = 6 ∧
    helloEndState.cursor_offset = 4 ∧
    trimmed_buffer 5 helloEndState = some ("world".toList) :=
  ⟨go_far_right_spec, by decide, by decide, by decide, by decide⟩

/-- Witness for the universally quantified part of the C6 theorem at the
scenario A state. -/
theorem c6_jump_line_end_witness :
    0 < helloState.last_render_width ∧
    go_far_right helloState = some { helloState with
      cursor_offset := min helloState.buffer.length (helloState.last_render_width - 1),
      visible_buffer_offset := helloState.buffer.length - helloState.last_render_width } :=
  ⟨by decide, c6_jump_line_end.1 helloState (by decide)⟩

theorem class_code_correct (chars : List Char) (pos : Nat) :
    get_char_class pos chars = classCode (spec_classify chars pos) := by
  unfold get_char_class spec_classify
  split_ifs <;> rfl

theorem classCode_inj (a b : CharClass) : classCode a = classCode b ↔ a = b := by
  cases a <;> cases b <;> decide

theorem skip_ws_eq (chars : List Char) :
    ∀ fuel pos, skipWsFwd chars fuel pos = spec_skip_ws chars fuel pos := by
  intro fuel
  induction fuel with
  | zero => intro pos; rfl
  | succ n ih =>
    intro pos
    unfold skipWsFwd spec_skip_ws
    rw [class_code_correct]
    have hiff : classCode (spec_classify chars pos) = 0 ↔
        spec_classify chars pos = CharClass.Whitespace := by
      rw [show (0 : Int) = classCode CharClass.Whitespace from rfl, classCode_inj]
    by_cases h : spec_classify chars pos = CharClass.Whitespace
    · rw [if_pos (hiff.mpr h), if_pos h, ih]
    · rw [if_neg (fun hc => h (hiff.mp hc)), if_neg h]

theorem adv_class_eq (chars : List Char) (c : CharClass) :
    ∀ fuel pos, advClassFwd chars (classCode c) fuel pos = spec_adv_class chars c fuel pos := by
  intro fuel
  induction fuel with
  | zero => intro pos; rfl
  | succ n ih =>
    intro pos
    unfold advClassFwd spec_adv_class
    rw [class_code_correct]
    have hiff : classCode (spec_classify chars pos) = classCode c ↔
        spec_classify chars pos = c := classCode_inj _ _
    by_cases h : spec_classify chars pos = c
    · rw [if_pos (hiff.mpr h), if_pos h, ih]
    · rw [if_neg (fun hc => h (hiff.mp hc)), if_neg h]

theorem end_of_word_scan_eq_spec (chars : List Char) (fromPos : Nat) :
    end_of_word_scan chars (fromPos + 1) - 1 = spec_end_of_word chars fromPos := by
  simp only [end_of_word_scan, spec_end_of_word]
  rw [skip_ws_eq]
  rw [class_code_correct]
  have hoob : classCode (spec_classify chars (spec_skip_ws chars (chars.length + 1) (fromPos + 1))) = -1 ↔
      spec_classify chars (spec_skip_ws chars (chars.length + 1) (fromPos + 1)) =
        CharClass.OutOfBounds := by
    rw [show (-1 : Int) = classCode CharClass.OutOfBounds from rfl, classCode_inj]
  by_cases h : spec_classify chars (spec_skip_ws chars (chars.length + 1) (fromPos + 1)) =
      CharClass.OutOfBounds
  · rw [if_neg (by simpa using hoob.mpr h), if_neg (by simpa using h)]
  · rw [if_pos (by simpa using fun hc => h (hoob.mp hc)), if_pos (by simpa using h),
        adv_class_eq]

theorem go_right_eq (s : InputState) (hw : 0 < s.last_render_width) :
    go_right s = some (
      if s.cursor_offset < min s.buffer.length (s.last_render_width - 1) then
        { s with cursor_offset := s.cursor_offset + 1 }
      else if s.last_render_width + s.visible_buffer_offset < s.buffer.length then
        { s with visible_buffer_offset := s.visible_buffer_offset + 1 }
      else s) := by
  have hw1 : 1 ≤ s.last_render_width := hw
  unfold go_right get_max_right_cursor_pos usub
  rw [if_pos hw1]
  simp only [Option.bind_eq_bind, Option.some_bind, Option.pure_def]
  split_ifs <;> rfl

/-- Claim C7: `end_of_word` computes its result exactly as the spec's scan
describes — advance from the logical position plus one, skip whitespace,
record the class there, advance while the class persists, return the scan
position minus one clipped at zero — and on "foo bar" it lands the cursor at
logical position 2 from position 0, and at logical position 6 from
position 2. -/
theorem c7_end_of_word :
    (∀ (chars : List Char) (fromPos : Nat),
        end_of_word_scan chars (fromPos + 1) - 1 = spec_end_of_word chars fromPos) ∧
    (∃ s1, go_end_of_word fooBarState = some s1 ∧
      s1.visible_buffer_offset + s1.cursor_offset = 2 ∧
      ∃ s2, go_end_of_word s1 = some s2 ∧
        s2.visible_buffer_offset + s2.cursor_offset = 6) :=
  ⟨end_of_word_scan_eq_spec,
   { fooBarState with cursor_offset := 2 }, by decide, by decide,
   { fooBarState with cursor_offset := 6 }, by decide, by decide⟩

/-- Claim C8 (counterexample): on `stateC8` (buffer "abcd", width 3, cursor at
the last visible column 2, window start 0) inserting 'x' puts the character at
logical position 2 as claimed, but the forced scroll plus `move_right` advance
the logical cursor position from 2 to 4 — by two, not by one. -/
theorem c8_counterexample :
    (insert_char 'x' stateC8).map
        (fun t => t.visible_buffer_offset + t.cursor_offset) =
      some (stateC8.visible_buffer_offset + stateC8.cursor_offset + 2) ∧
    (insert_char 'x' stateC8).map
        (fun t => t.visible_buffer_offset + t.cursor_offset) ≠
      some (stateC8.visible_buffer_offset + stateC8.cursor_offset + 1) ∧
    (insert_char 'x' stateC8).map InputState.buffer = some ("abxcd".toList) := by
  decide

/-- Claim C8 (amended): insertion places the character exactly at logical
position `window_start + cursor_column`, grows the buffer length by one while
preserving the prefix and suffix, and advances the logical cursor position by
one — except that when the cursor sat at the last visible column
(`cursor_column + 1 ≥ width`) and the window could still scroll
(`window_start + width < pre-insert length`), the forced scroll and the
`move_right` combine and the logical position advances by two. -/
theorem c8_insert_advance (ch : Char) (s : InputState)
    (hoff : s.visible_buffer_offset + s.cursor_offset ≤ s.buffer.length)
    (hw : 0 < s.last_render_width) :
    ∃ t, insert_char ch s = some t ∧
      t.buffer = s.buffer.take (s.visible_buffer_offset + s.cursor_offset) ++
          ch :: s.buffer.drop (s.visible_buffer_offset + s.cursor_offset) ∧
      t.buffer.length = s.buffer.length + 1 ∧
      t.visible_buffer_offset + t.cursor_offset =
        s.visible_buffer_offset + s.cursor_offset +
          (if s.cursor_offset + 1 ≥ s.last_render_width ∧
              s.visible_buffer_offset + s.last_render_width < s.buffer.length
           then 2 else 1) := by
  have hlen : (s.buffer.take (s.visible_buffer_offset + s.cursor_offset) ++
      ch :: s.buffer.drop (s.visible_buffer_offset + s.cursor_offset)).length =
      s.buffer.length + 1 := by
    simp only [List.length_append, List.length_cons, List.length_take, List.length_drop]
    omega
  simp only [insert_char, get_buffer_update_offset]
  rw [if_pos hoff]
  by_cases hforce : s.cursor_offset + 1 ≥ s.last_render_width
  · rw [if_pos hforce]
    rw [go_right_eq _ (by simpa using hw)]
    dsimp only
    have hc1 : ¬ (s.cursor_offset <
        min (s.buffer.take (s.visible_buffer_offset + s.cursor_offset) ++
          ch :: s.buffer.drop (s.visible_buffer_offset + s.cursor_offset)).length
          (s.last_render_width - 1)) := by
      have hmr := min_le_right (s.buffer.take (s.visible_buffer_offset + s.cursor_offset) ++
          ch :: s.buffer.drop (s.visible_buffer_offset + s.cursor_offset)).length
          (s.last_render_width - 1)
      omega
    rw [if_neg hc1]
    by_cases hscroll : s.visible_buffer_offset + s.last_render_width < s.buffer.length
    · have hc2 : s.last_render_width + (s.visible_buffer_offset + 1) <
          (s.buffer.take (s.visible_buffer_offset + s.cursor_offset) ++
            ch :: s.buffer.drop (s.visible_buffer_offset + s.cursor_offset)).length := by
        rw [hlen]; omega
      rw [if_pos hc2]
      refine ⟨_, rfl, rfl, hlen, ?_⟩
      rw [if_pos ⟨hforce, hscroll⟩]
      dsimp only
      omega
    · have hc2 : ¬ (s.last_render_width + (s.visible_buffer_offset + 1) <
          (s.buffer.take (s.visible_buffer_offset + s.cursor_offset) ++
            ch :: s.buffer.drop (s.visible_buffer_offset + s.cursor_offset)).length) := by
        rw [hlen]; omega
      rw [if_neg hc2]
      refine ⟨_, rfl, rfl, hlen, ?_⟩
      rw [if_neg (fun h => hscroll h.2)]
      dsimp only
      omega
  · rw [if_neg hforce]
    rw [go_right_eq _ (by simpa using hw)]
    dsimp only
    have hc1 : s.cursor_offset <
        min (s.buffer.take (s.visible_buffer_offset + s.cursor_offset) ++
          ch :: s.buffer.drop (s.visible_buffer_offset + s.cursor_offset)).length
          (s.last_render_width - 1) := by
      rw [hlen]
      exact lt_min (by omega) (by omega)
    rw [if_pos hc1]
    refine ⟨_, rfl, rfl, hlen, ?_⟩
    rw [if_neg (fun h => hforce h.1)]
    dsimp only
    omega

/-- Witness for the amended C8 theorem at the scenario B state (buffer "ab",
cursor at logical position 1, width 3). -/
theorem c8_insert_advance_witness :
    stateScenB.visible_buffer_offset + stateScenB.cursor_offset ≤
        stateScenB.buffer.length ∧
    0 < stateScenB.last_render_width ∧
    (∃ t, insert_char 'x' stateScenB = some t ∧
      t.buffer = stateScenB.buffer.take
          (stateScenB.visible_buffer_offset + stateScenB.cursor_offset) ++
          'x' :: stateScenB.buffer.drop
            (stateScenB.visible_buffer_offset + stateScenB.cursor_offset) ∧
      t.buffer.length = stateScenB.buffer.length + 1 ∧
      t.visible_buffer_offset + t.cursor_offset =
        stateScenB.visible_buffer_offset + stateScenB.cursor_offset +
          (if stateScenB.cursor_offset + 1 ≥ stateScenB.last_render_width ∧
              stateScenB.visible_buffer_offset + stateScenB.last_render_width <
                stateScenB.buffer.length
           then 2 else 1)) :=
  ⟨by decide, by decide, c8_insert_advance 'x' stateScenB (by decide) (by decide)⟩

/-- Claim C9: `jump_line_start` is idempotent with fixed point
`(window_start, cursor_column) = (0, 0)`; `jump_line_end` is idempotent for a
given buffer and width; `jump_line_end` followed by `jump_line_start` yields
`window_start = 0` and `cursor_column = 0`. -/
theorem c9_jump_extremes :
    (∀ s : InputState, go_far_left (go_far_left s) = go_far_left s ∧
        (go_far_left s).visible_buffer_offset = 0 ∧ (go_far_left s).cursor_offset = 0) ∧
    (∀ s t : InputState, go_far_right s = some t → go_far_right t = some t) ∧
    (∀ s t : InputState, go_far_right s = some t →
        (go_far_left t).visible_buffer_offset = 0 ∧ (go_far_left t).cursor_offset = 0) := by
  refine ⟨fun s => ⟨rfl, rfl, rfl⟩, ?_, fun s t _ => ⟨rfl, rfl⟩⟩
  intro s t ht
  rcases Nat.eq_zero_or_pos s.last_render_width with h0 | hpos
  · rw [go_far_right_none s h0] at ht
    cases ht
  · rw [go_far_right_spec s hpos] at ht
    simp only [Option.some.injEq] at ht
    subst ht
    rw [go_far_right_spec _ (by simpa using hpos)]

/-- Witness for the C9 theorem: on buffer "abc" with width 2,
`jump_line_end` reaches `c9EndState`, is idempotent there, and
`jump_line_start` afterwards zeroes both offsets. -/
theorem c9_jump_extremes_witness :
    go_far_right c9EndState = some c9EndState ∧
    (go_far_left c9EndState).visible_buffer_offset = 0 ∧
    (go_far_left c9EndState).cursor_offset = 0 :=
  ⟨c9_jump_extremes.2.1 c9State c9EndState (by decide),
   (c9_jump_extremes.2.2 c9State c9EndState (by decide)).1,
   (c9_jump_extremes.2.2 c9State c9EndState (by decide)).2⟩

/-- Claim C10: every navigation motion (`move_left`, `move_right`,
`jump_line_start`, `jump_line_end`, `end_of_word`, `back_word`) leaves the
buffer contents — and also the stored width and the focus flag — unchanged:
only the cursor column and the window start may differ. -/
theorem c10_motion_frame (s : InputState) :
    ((go_left s).buffer = s.buffer ∧ (go_left s).last_render_width = s.last_render_width ∧
      (go_left s).focused = s.focused) ∧
    ((go_far_left s).buffer = s.buffer ∧
      (go_far_left s).last_render_width = s.last_render_width ∧
      (go_far_left s).focused = s.focused) ∧
    ((go_back_word s).buffer = s.buffer ∧
      (go_back_word s).last_render_width = s.last_render_width ∧
      (go_back_word s).focused = s.focused) ∧
    (∀ t, go_right s = some t → t.buffer = s.buffer ∧
      t.last_render_width = s.last_render_width ∧ t.focused = s.focused) ∧
    (∀ t, go_far_right s = some t → t.buffer = s.buffer ∧
      t.last_render_width = s.last_render_width ∧ t.focused = s.focused) ∧
    (∀ t, go_end_of_word s = some t → t.buffer = s.buffer ∧
      t.last_render_width = s.last_render_width ∧ t.focused = s.focused) := by
  refine ⟨?_, ⟨rfl, rfl, rfl⟩, ?_, ?_, ?_, ?_⟩
  · unfold go_left
    split_ifs <;> exact ⟨rfl, rfl, rfl⟩
  · unfold go_back_word
    dsimp only
    split_ifs <;> exact ⟨rfl, rfl, rfl⟩
  · intro t ht
    unfold go_right at ht
    cases hm : get_max_right_cursor_pos s with
    | none => rw [hm] at ht; simp at ht
    | some m =>
      rw [hm] at ht
      simp only [Option.bind_eq_bind, Option.some_bind] at ht
      split_ifs at ht <;>
        (simp only [Option.pure_def, Option.some.injEq] at ht; subst ht;
         exact ⟨rfl, rfl, rfl⟩)
  · intro t ht
    unfold go_far_right at ht
    cases hm : get_max_right_cursor_pos s with
    | none => rw [hm] at ht; simp at ht
    | some m =>
      rw [hm] at ht
      simp only [Option.bind_eq_bind, Option.some_bind, Option.pure_def,
        Option.some.injEq] at ht
      subst ht
      exact ⟨rfl, rfl, rfl⟩
  · intro t ht
    unfold go_end_of_word at ht
    cases hm : get_max_right_cursor_pos s with
    | none => rw [hm] at ht; simp at ht
    | some m =>
      rw [hm] at ht
      simp only [Option.bind_eq_bind, Option.some_bind] at ht
      set cur := end_of_word_scan s.buffer
          (s.visible_buffer_offset + s.cursor_offset + 1) with hcur
      cases h1 : usub m 1 with
      | none => rw [h1] at ht; simp at ht
      | some th =>
        rw [h1] at ht
        simp only [Option.some_bind] at ht
        by_cases hc : cur ≥ th
        · rw [if_pos hc] at ht
          cases h2 : usub cur (min (cur - 1) m) with
          | none => rw [h2] at ht; simp at ht
          | some t1 =>
            rw [h2] at ht
            simp only [Option.some_bind] at ht
            cases h3 : usub t1 1 with
            | none => rw [h3] at ht; simp at ht
            | some t2 =>
              rw [h3] at ht
              simp only [Option.some_bind, Option.pure_def, Option.some.injEq] at ht
              subst ht
              exact ⟨rfl, rfl, rfl⟩
        · rw [if_neg hc] at ht
          simp only [Option.pure_def, Option.some.injEq] at ht
          subst ht
          exact ⟨rfl, rfl, rfl⟩

/-- Witness for the C10 theorem on the concrete state with buffer "ab" and
width 3, where `move_right`, `jump_line_end` and `end_of_word` all succeed. -/
theorem c10_motion_frame_witness :
    ({ c10State with cursor_offset := 1 } : InputState).buffer = c10State.buffer ∧
    ({ c10State with cursor_offset := 2 } : InputState).buffer = c10State.buffer ∧
    ({ c10State with cursor_offset := 1 } : InputState).last_render_width =
      c10State.last_render_width :=
  ⟨((c10_motion_frame c10State).2.2.2.1 { c10State with cursor_offset := 1 }
      (by decide)).1,
   ((c10_motion_frame c10State).2.2.2.2.1 { c10State with cursor_offset := 2 }
      (by decide)).1,
   (((c10_motion_frame c10State).2.2.2.2.2 { c10State with cursor_offset := 1 }
      (by decide)).2).1⟩

end HkbInput
